import Mathlib

/-!
Verification of the `5dlabs/agent-docs` ingestion scripts.

The repository is a set of Python batch scripts
(`scripts/ingestion/ingest_birdeye.py`, `ingest_birdeye_simple.py`,
`ingest_solana.py`, `ingest_solana_comprehensive.py`, plus
`validate_migration.py`) that scrape documentation, generate embeddings and
upsert rows into a Postgres `documents` table.

Shallow embedding conventions used throughout this file:
* Python strings are modelled as `List Char` (`PyStr`); string constants are
  written as Lean string literals converted with `String.toList`.
* The Postgres `documents` table is modelled as an ordered `List DocRow`;
  the single SQL statement
  `INSERT ... ON CONFLICT (doc_type, source_name, doc_path) DO UPDATE SET
   content, metadata, embedding, token_count, updated_at` shared (up to
  constants) by all three store functions is modelled by `documentsUpsert`.
* Embedding vectors are opaque to every claim, so they are modelled as
  `List Int`; timestamps (`CURRENT_TIMESTAMP`) are modelled as a `Nat`
  parameter threaded into each store call.
* Python exceptions are modelled by explicit `Option` results, and the
  outcome of an HTTP request by an explicit oracle value.
-/

/-- Python `str` modelled as a list of characters. -/
abbrev PyStr := List Char

/-- An embedding vector; its numeric contents are irrelevant to every claim. -/
abbrev Embedding := List Int

/-- Check that `p` is an initial segment of `s` (used to model Python's
substring test). -/
def leadsWith : PyStr → PyStr → Bool
  | [], _ => true
  | _ :: _, [] => false
  | p :: ps, c :: cs => p == c && leadsWith ps cs

/-- Python's `pat in s` substring test on strings. -/
def hasSub : PyStr → PyStr → Bool
  | [], pat => pat.isEmpty
  | s@(_ :: rest), pat => leadsWith pat s || hasSub rest pat

/-- Python's `s.endswith(suffix)` (used to model `Path.rglob("*.ext")`,
which selects exactly the files whose name ends with the extension). -/
def endsWithL (s suffix : PyStr) : Bool :=
  leadsWith suffix.reverse s.reverse

/-- Python's `s.lower()` for the ASCII method names that occur here. -/
def pyLower (s : PyStr) : PyStr := s.map Char.toLower

/-- Python's `s.upper()` for the ASCII method names that occur here. -/
def pyUpper (s : PyStr) : PyStr := s.map Char.toUpper

/-- Python's `path.replace('/', '_')`: the pattern and replacement are single
characters, so the replacement is a character-wise map. -/
def replaceSlashes (s : PyStr) : PyStr :=
  s.map (fun c => if c == '/' then '_' else c)

/-- Helper for `wordCount`: counts maximal runs of non-whitespace characters;
the flag records whether the scan is currently inside a word. -/
def countRuns : PyStr → Bool → Nat
  | [], _ => 0
  | c :: rest, inWord =>
    if c.isWhitespace then countRuns rest false
    else (if inWord then 0 else 1) + countRuns rest true

/-- Python's `len(s.split())`: the number of whitespace-separated words
(used for `token_count` in `ingest_birdeye.py`). -/
def wordCount (s : PyStr) : Nat := countRuns s false

/-- Python's `s.strip()`: drop leading and trailing whitespace. -/
def pyStrip (s : PyStr) : PyStr :=
  ((s.dropWhile Char.isWhitespace).reverse.dropWhile Char.isWhitespace).reverse

/- ### Embedding-input truncation

All three `EmbeddingGenerator.generate_embedding` implementations
(`ingest_birdeye.py` lines 234-240, `ingest_solana.py` lines 227-233,
`ingest_birdeye_simple.py` lines 154-160, `ingest_solana_comprehensive.py`
lines 335-341) perform the same truncation before submitting the text. -/

/-- The `MAX_CHARS = 30_000` character budget of `generate_embedding`. -/
def MAX_CHARS : Nat := 30000

/-- The marker `"... [TRUNCATED]"` appended to truncated embedding inputs. -/
def truncMarker : PyStr := "... [TRUNCATED]".toList

/-- The truncation performed by every `generate_embedding` before the text is
submitted to the embedding API:
`if len(text) > MAX_CHARS: text = text[:MAX_CHARS] + "... [TRUNCATED]"`. -/
def truncateForEmbedding (text : PyStr) : PyStr :=
  if text.length > MAX_CHARS then text.take MAX_CHARS ++ truncMarker else text

/- ### The `documents` table model -/

/-- The column values supplied by the `INSERT INTO documents (doc_type,
source_name, doc_path, content, metadata, embedding, token_count)` statement
of the store functions. `metadata` is the `json.dumps` serialisation, kept as
an opaque string. -/
structure DocInsert where
  doc_type : PyStr
  source_name : PyStr
  doc_path : PyStr
  content : PyStr
  metadata : PyStr
  embedding : Embedding
  token_count : Nat
deriving DecidableEq, Inhabited

/-- A row of the `documents` table: the inserted columns plus the
timestamp columns maintained by the database (`created_at` by column
default, `updated_at` by default and by the `DO UPDATE` clause). -/
structure DocRow where
  doc_type : PyStr
  source_name : PyStr
  doc_path : PyStr
  content : PyStr
  metadata : PyStr
  embedding : Embedding
  token_count : Nat
  created_at : Nat
  updated_at : Nat
deriving DecidableEq, Inhabited

/-- The composite key `(doc_type, source_name, doc_path)` of a row, the
subject of the table's uniqueness constraint. -/
def rowKey (r : DocRow) : PyStr × PyStr × PyStr :=
  (r.doc_type, r.source_name, r.doc_path)

/-- The composite key of an insert. -/
def insertKey (d : DocInsert) : PyStr × PyStr × PyStr :=
  (d.doc_type, d.source_name, d.doc_path)

/-- Does row `r` conflict with insert `d` on the uniqueness constraint
`(doc_type, source_name, doc_path)`? -/
def keyMatches (r : DocRow) (d : DocInsert) : Bool :=
  r.doc_type == d.doc_type && r.source_name == d.source_name &&
    r.doc_path == d.doc_path

/-- No two rows of the table share the composite key
`(doc_type, source_name, doc_path)`. -/
def keysDistinct (tbl : List DocRow) : Prop :=
  tbl.Pairwise (fun a b => rowKey a ≠ rowKey b)

/-- The effect of the `DO UPDATE SET content = ..., metadata = ...,
embedding = ..., token_count = ..., updated_at = CURRENT_TIMESTAMP` clause on
a conflicting row. -/
def applyUpdate (r : DocRow) (d : DocInsert) (now : Nat) : DocRow :=
  { r with
    content := d.content
    metadata := d.metadata
    embedding := d.embedding
    token_count := d.token_count
    updated_at := now }

/-- The row created by the `INSERT` when no conflict occurs; `created_at`
and `updated_at` take their column defaults (`CURRENT_TIMESTAMP`). -/
def insertRow (d : DocInsert) (now : Nat) : DocRow :=
  { doc_type := d.doc_type
    source_name := d.source_name
    doc_path := d.doc_path
    content := d.content
    metadata := d.metadata
    embedding := d.embedding
    token_count := d.token_count
    created_at := now
    updated_at := now }

/-- The upsert statement
`INSERT INTO documents (...) VALUES (...) ON CONFLICT
(doc_type, source_name, doc_path) DO UPDATE SET content, metadata,
embedding, token_count, updated_at` executed by
`DatabaseManager.store_document` (`ingest_birdeye.py` lines 312-324),
`DatabaseManager.store_endpoints` (`ingest_birdeye_simple.py` lines
194-214) and `DatabaseManager.store_documents` (`ingest_solana.py` lines
267-287, `ingest_solana_comprehensive.py` lines 375-395). -/
def documentsUpsert (tbl : List DocRow) (d : DocInsert) (now : Nat) :
    List DocRow :=
  if tbl.any (fun r => keyMatches r d) then
    tbl.map (fun r => if keyMatches r d then applyUpdate r d now else r)
  else
    tbl ++ [insertRow d now]

/-- A sequence of store operations: each of the ingestion scripts' store
functions executes `documentsUpsert` once per document, in order. -/
def storeSequence (tbl : List DocRow) (ops : List (DocInsert × Nat)) :
    List DocRow :=
  ops.foldl (fun acc op => documentsUpsert acc op.1 op.2) tbl

/-- Forget the `updated_at` column of every row ("up to the `updated_at`
timestamp"). -/
def eraseUpdatedAt (tbl : List DocRow) : List DocRow :=
  tbl.map (fun r => { r with updated_at := 0 })

/- ### `ingest_birdeye.py`: endpoints and their store operation -/

/-- The `BirdEyeEndpoint` dataclass of `ingest_birdeye.py`.  The `metadata`
dict is kept as its `json.dumps` serialisation. -/
structure BirdEyeEndpoint where
  url : PyStr
  title : PyStr
  method : PyStr
  path : PyStr
  content : PyStr
  metadata : PyStr
deriving DecidableEq, Inhabited

/-- The `doc_path` computed by `DatabaseManager.store_document`
(`ingest_birdeye.py` line 310):
`f"{endpoint.method.lower()}{endpoint.path.replace('/', '_')}"`. -/
def birdeyeDocPath (e : BirdEyeEndpoint) : PyStr :=
  pyLower e.method ++ replaceSlashes e.path

/-- `DatabaseManager.store_document` of `ingest_birdeye.py` (lines 308-324):
doc_type `'birdeye'`, source_name `'birdeye-api'`, derived `doc_path`,
`token_count = len(endpoint.content.split())`. -/
def store_document (tbl : List DocRow) (e : BirdEyeEndpoint)
    (emb : Embedding) (now : Nat) : List DocRow :=
  documentsUpsert tbl
    { doc_type := "birdeye".toList
      source_name := "birdeye-api".toList
      doc_path := birdeyeDocPath e
      content := e.content
      metadata := e.metadata
      embedding := emb
      token_count := wordCount e.content } now

/-- `DatabaseManager.store_endpoints` of `ingest_birdeye.py` (lines 273-289):
one `store_document` per `zip(endpoints, embeddings)` element, in order.
(The surrounding `ensure_document_source` / `update_source_stats` calls touch
only the `document_sources` table.) -/
def store_endpoints (tbl : List DocRow) (endpoints : List BirdEyeEndpoint)
    (embeddings : List Embedding) (now : Nat) : List DocRow :=
  (endpoints.zip embeddings).foldl
    (fun acc pair => store_document acc pair.1 pair.2 now) tbl

/- ### `ingest_birdeye_simple.py`: endpoints and their store operation -/

/-- The `BirdEyeEndpoint` dataclass of `ingest_birdeye_simple.py`. -/
structure SimpleEndpoint where
  path : PyStr
  method : PyStr
  title : PyStr
  description : PyStr
  content : PyStr
  metadata : PyStr
deriving DecidableEq, Inhabited

/-- Construction of an endpoint in
`BirdEyeProcessor.extract_endpoints_from_spec` (`ingest_birdeye_simple.py`
lines 130-141): the stored `method` field is `method.upper()`. -/
def mkSimpleEndpoint (method path title description : PyStr)
    (content metadata : PyStr) : SimpleEndpoint :=
  { path := path
    method := pyUpper method
    title := title
    description := description
    content := content
    metadata := metadata }

/-- The `doc_path` computed by `DatabaseManager.store_endpoints`
(`ingest_birdeye_simple.py` line 192): `f"{endpoint.method} {endpoint.path}"`. -/
def simpleDocPath (e : SimpleEndpoint) : PyStr :=
  e.method ++ " ".toList ++ e.path

/-- A single iteration of the storing loop of
`DatabaseManager.store_endpoints` in `ingest_birdeye_simple.py` (lines
188-214): doc_type `'birdeye'`, source_name `'BirdEye API'`,
`token_count = len(endpoint.content) // 4`. -/
def store_endpoint_simple (tbl : List DocRow) (e : SimpleEndpoint)
    (emb : Embedding) (now : Nat) : List DocRow :=
  documentsUpsert tbl
    { doc_type := "birdeye".toList
      source_name := "BirdEye API".toList
      doc_path := simpleDocPath e
      content := e.content
      metadata := e.metadata
      embedding := emb
      token_count := e.content.length / 4 } now

/-- `DatabaseManager.store_endpoints` of `ingest_birdeye_simple.py`:
one upsert per `zip(endpoints, embeddings)` element, in order. -/
def store_endpoints_simple (tbl : List DocRow)
    (endpoints : List SimpleEndpoint) (embeddings : List Embedding)
    (now : Nat) : List DocRow :=
  (endpoints.zip embeddings).foldl
    (fun acc pair => store_endpoint_simple acc pair.1 pair.2 now) tbl

/- ### `ingest_solana.py` / `ingest_solana_comprehensive.py`: documents and
their store operation -/

/-- The fields of the `SolanaDocument` dataclass involved in the claims
under verification (`title`, `category` and the `metadata` dict are carried
as opaque strings / omitted bookkeeping). -/
structure SolanaDocument where
  file_path : PyStr
  relative_path : PyStr
  content : PyStr
  metadata : PyStr
deriving DecidableEq, Inhabited

/-- A single iteration of the storing loop of
`DatabaseManager.store_documents` (`ingest_solana.py` lines 261-287,
identically `ingest_solana_comprehensive.py` lines 369-395):
`doc_path = doc.relative_path`, doc_type `'solana'`, source_name
`'Solana Agave'`, `token_count = len(doc.content) // 4`. -/
def store_solana_document (tbl : List DocRow) (doc : SolanaDocument)
    (emb : Embedding) (now : Nat) : List DocRow :=
  documentsUpsert tbl
    { doc_type := "solana".toList
      source_name := "Solana Agave".toList
      doc_path := doc.relative_path
      content := doc.content
      metadata := doc.metadata
      embedding := emb
      token_count := doc.content.length / 4 } now

/-- `DatabaseManager.store_documents`: one upsert per
`zip(documents, embeddings)` element, in order. -/
def store_documents (tbl : List DocRow) (docs : List SolanaDocument)
    (embeddings : List Embedding) (now : Nat) : List DocRow :=
  (docs.zip embeddings).foldl
    (fun acc pair => store_solana_document acc pair.1 pair.2 now) tbl

/- ### `ingest_birdeye.py`: `extract_endpoint_data` and the main fetch loop -/

/-- The `api` section of the dereference response
(`data['data']['api']`); `method` and `path` are optional dict entries with
defaults `'GET'` / `'/unknown'`, `schema` is kept as its rendered JSON. -/
structure ApiInfo where
  method : Option PyStr
  path : Option PyStr
  schema : Option PyStr
deriving DecidableEq, Inhabited

/-- The `data` section of a successfully parsed dereference response. The
`content.body` and `metadata` parts only feed the rendered `content`
string, which no claim inspects, so they are carried as pre-rendered text. -/
structure DataSection where
  title : Option PyStr
  api : Option ApiInfo
  body : Option PyStr
deriving DecidableEq, Inhabited

/-- Outcome of the single HTTP request issued for an endpoint URL:
`raised` covers every exception path inside the `try` block (connection
errors, `raise_for_status`, JSON decoding), `noData` a parsed JSON body
without a `'data'` key, `ok` a body with one. -/
inductive FetchOutcome where
  | raised : FetchOutcome
  | noData : FetchOutcome
  | ok : DataSection → FetchOutcome
deriving DecidableEq, Inhabited

/-- Does the URL contain `'/reference/'` (`ingest_birdeye.py` line 126)? -/
def hasReferenceSegment (url : PyStr) : Bool :=
  hasSub url "/reference/".toList

/-- The method extracted in `extract_endpoint_data` (lines 152-159):
default `'GET'`, else `api_info.get('method', 'GET').upper()`. -/
def extractedMethod (d : DataSection) : PyStr :=
  match d.api with
  | none => "GET".toList
  | some a => pyUpper (a.method.getD "GET".toList)

/-- The path extracted in `extract_endpoint_data` (lines 152-160):
default `'/unknown'`, else `api_info.get('path', '/unknown')`. -/
def extractedPath (d : DataSection) : PyStr :=
  match d.api with
  | none => "/unknown".toList
  | some a => a.path.getD "/unknown".toList

/-- The title extracted in `extract_endpoint_data` (line 147):
`data_section.get('title', 'Unknown Endpoint')`. -/
def extractedTitle (d : DataSection) : PyStr :=
  d.title.getD "Unknown Endpoint".toList

/-- The `content_parts` assembly of `extract_endpoint_data`
(lines 166-200), joined with newlines. -/
def buildEndpointContent (d : DataSection) : PyStr :=
  "# ".toList ++ extractedTitle d ++
    "\n**Method:** ".toList ++ extractedMethod d ++
    "\n**Path:** ".toList ++ extractedPath d ++ "\n".toList ++
    (match d.body with
     | none => []
     | some b => "\n**Description:**\n".toList ++ b ++ "\n".toList) ++
    (match d.api with
     | none => []
     | some a =>
       match a.schema with
       | none => []
       | some s =>
         "\n## OpenAPI Specification\n```json\n".toList ++ s ++
           "\n```\n".toList)

/-- Result of `BirdEyeExtractor.extract_endpoint_data` for one URL together
with the number of HTTP requests it issued. -/
structure ExtractResult where
  endpoint : Option BirdEyeEndpoint
  requests : Nat
deriving DecidableEq, Inhabited

/-- `BirdEyeExtractor.extract_endpoint_data` (`ingest_birdeye.py` lines
119-225). The whole body is wrapped in `try/except Exception: return None`,
so the model is total: a URL without `'/reference/'` returns `None` before
any request; otherwise exactly one request is issued (line 135) and every
error outcome yields `None`. The `metadata` dict is carried as the rendered
content (no claim inspects it). -/
def extract_endpoint_data (url : PyStr) (outcome : FetchOutcome) :
    ExtractResult :=
  if ¬ hasReferenceSegment url then
    { endpoint := none, requests := 0 }
  else
    match outcome with
    | FetchOutcome.raised => { endpoint := none, requests := 1 }
    | FetchOutcome.noData => { endpoint := none, requests := 1 }
    | FetchOutcome.ok d =>
      { endpoint := some
          { url := url
            title := extractedTitle d
            method := extractedMethod d
            path := extractedPath d
            content := buildEndpointContent d
            metadata := buildEndpointContent d }
        requests := 1 }

/-- The extraction loop of `main` in `ingest_birdeye.py` (lines 380-393):
each URL is processed exactly once, in order; a successful extraction is
appended to the result list and a failure is skipped (never retried).
Returns the extracted endpoints and the total number of HTTP requests.
The `time.sleep` rate limiting issues no requests. -/
def processUrls (urls : List PyStr) (oracle : PyStr → FetchOutcome) :
    List BirdEyeEndpoint × Nat :=
  urls.foldl
    (fun acc url =>
      (acc.1 ++ (extract_endpoint_data url (oracle url)).endpoint.toList,
        acc.2 + (extract_endpoint_data url (oracle url)).requests))
    ([], 0)

/- ### The phase structure of the ingestion runs -/

/-- One observable step of an ingestion run acting on document `i`:
its fetch/extract step, its embedding-API call (which includes the
truncation), or its database upsert. -/
inductive RunStep where
  | fetchDoc : Nat → RunStep
  | embedDoc : Nat → RunStep
  | upsertDoc : Nat → RunStep
deriving DecidableEq, Inhabited

/-- The order of steps performed by `main` for a run over `n` documents
(`ingest_birdeye.py` lines 378-416, and identically phased
`ingest_birdeye_simple.py` lines 242-259, `ingest_solana.py` lines 321-339,
`ingest_solana_comprehensive.py` lines 430-448): first a loop fetching and
extracting every document, then a loop generating every embedding, then the
store function upserting every row. The trace lists the steps of a run in
which all `n` fetches succeed. -/
def ingestionTrace (n : Nat) : List RunStep :=
  (List.range n).map RunStep.fetchDoc ++
    ((List.range n).map RunStep.embedDoc ++
      (List.range n).map RunStep.upsertDoc)

/-- Step `s` occurs at some position strictly before an occurrence of step
`t` in the trace. -/
def occursBefore (s t : RunStep) (tr : List RunStep) : Prop :=
  ∃ p q : Nat, p < q ∧ tr[p]? = some s ∧ tr[q]? = some t

/- ### File discovery (`ingest_solana.py` lines 119-148,
`ingest_solana_comprehensive.py` lines 179-219) -/

/-- The `skip_patterns` list shared by both discovery functions. -/
def skipPatterns : List PyStr :=
  ["node_modules/".toList, ".git/".toList, "target/".toList,
    "build/".toList, "dist/".toList, "CODEOWNERS".toList, "NOTICE".toList]

/-- The skip test `any(pattern in relative_path for pattern in skip_patterns)`
applied to a repository-relative path. -/
def isSkipped (p : PyStr) : Bool :=
  skipPatterns.any (fun pat => hasSub p pat)

/-- `SolanaDocProcessor.discover_markdown_files` (`ingest_solana.py` lines
119-148), acting on the repository-relative paths of the files in the
repository: `rglob("*.md")` is modelled as the suffix filter, and a path
matching a skip pattern is dropped. -/
def discover_markdown_files (files : List PyStr) : List PyStr :=
  (files.filter (fun p => endsWithL p ".md".toList)).filter
    (fun p => ! isSkipped p)

/-- The `supported_extensions` list of
`ComprehensiveSolanaProcessor.discover_documentation_files` (line 184). -/
def supportedExtensions : List PyStr :=
  [".md".toList, ".mdx".toList, ".bob".toList, ".msc".toList, ".pdf".toList]

/-- `ComprehensiveSolanaProcessor.discover_documentation_files`
(`ingest_solana_comprehensive.py` lines 179-219): one `rglob` pass per
supported extension (modelled as the suffix filter), dropping paths that
match a skip pattern. -/
def discover_documentation_files (files : List PyStr) : List PyStr :=
  supportedExtensions.flatMap (fun ext =>
    (files.filter (fun p => endsWithL p ext)).filter (fun p => ! isSkipped p))

/- ### Content cleaning and file processing (`ingest_solana.py` lines
108-192, `ingest_solana_comprehensive.py` lines 161-294) -/

/-- The effect of `re.sub(r'\n\s*\n\s*\n', '\n\n', content)` on one maximal
whitespace run: the pattern is pure whitespace beginning and ending with a
newline, so a (leftmost, greedy) match spans a run's first through last
newline exactly when the run holds at least three newlines, and the match is
replaced by two newlines. -/
def collapseWsRun (run : PyStr) : PyStr :=
  if 3 ≤ run.count '\n' then
    run.takeWhile (fun c => c ≠ '\n') ++ "\n\n".toList ++
      (run.reverse.takeWhile (fun c => c ≠ '\n')).reverse
  else run

/-- Helper for `collapseBlankRuns`: scans the text, accumulating the current
maximal whitespace run (in reverse) in `run`, and rewrites each completed
run with `collapseWsRun`. -/
def collapseAux : PyStr → PyStr → PyStr
  | run, [] => collapseWsRun run.reverse
  | run, c :: rest =>
    if c.isWhitespace then collapseAux (c :: run) rest
    else collapseWsRun run.reverse ++ c :: collapseAux [] rest

/-- `re.sub(r'\n\s*\n\s*\n', '\n\n', content)` (`ingest_solana.py` line 111,
`ingest_solana_comprehensive.py` line 165): since every character of the
pattern is whitespace, each match lies inside a maximal whitespace run and
each such run is rewritten independently by `collapseWsRun` (a run with
fewer than three newlines — in particular the empty run between two
adjacent non-whitespace characters — is left unchanged). -/
def collapseBlankRuns (l : PyStr) : PyStr :=
  collapseAux [] l

/-- `re.sub(r'^\s*\n', '', content)` (`ingest_solana.py` line 114,
`ingest_solana_comprehensive.py` line 166): anchored at the start of the
string (no `MULTILINE`), so at most one match, which removes everything up
to and including the last newline of the leading whitespace run. -/
def dropLeadingBlank (l : PyStr) : PyStr :=
  if (l.takeWhile Char.isWhitespace).contains '\n' then
    ((l.takeWhile Char.isWhitespace).reverse.takeWhile
        (fun c => c ≠ '\n')).reverse ++
      l.dropWhile Char.isWhitespace
  else l

/-- `SolanaDocProcessor.clean_markdown_content` (`ingest_solana.py` lines
108-117): the two regex substitutions followed by `strip()`. -/
def clean_markdown_content (content : PyStr) : PyStr :=
  pyStrip (dropLeadingBlank (collapseBlankRuns content))

/-- The `content` built for a PDF in
`ComprehensiveSolanaProcessor.process_documentation_file` (lines 265-277).
The interpolated title and relative path are parameters; no claim inspects
this text beyond its non-emptiness. -/
def pdfContentTemplate (title relative_path : PyStr) : PyStr :=
  "# ".toList ++ title ++
    "\n\n**File Type:** PDF Technical Specification\n**Location:** ".toList ++
    relative_path ++
    "\n**Repository:** anza-xyz/agave\n\nThis is a PDF document containing technical specifications for Solana's ".toList ++
    pyLower title ++
    ". The PDF contains detailed mathematical proofs, algorithms, and implementation details.\n\n**To access the full content:** This document requires a PDF reader. The file is located at `".toList ++
    relative_path ++
    "` in the Agave repository.\n\n**Category:** Technical specification document\n**Format:** Portable Document Format (PDF)\n".toList

/-- `ComprehensiveSolanaProcessor.clean_content` (lines 161-177). For the
`pdf` branch, `Path(content).name` is carried as the path itself (no claim
inspects that text). -/
def clean_content (content : PyStr) (file_type : PyStr) : PyStr :=
  if file_type == "md".toList || file_type == "mdx".toList then
    pyStrip (dropLeadingBlank (collapseBlankRuns content))
  else if file_type == "bob".toList || file_type == "msc".toList then
    pyStrip content
  else if file_type == "pdf".toList then
    "[PDF Document: ".toList ++ content ++
      "]\n\nThis is a PDF technical specification. Content requires PDF reader to view.".toList
  else
    pyStrip content

/-- `SolanaDocProcessor.process_markdown_file` (`ingest_solana.py` lines
150-192): `if not raw_content.strip(): return None`, else the document with
the cleaned content. The `Path.relative_to` computation, title extraction
and metadata dict are bookkeeping carried as parameters (no claim under
verification inspects them). -/
def process_markdown_file (file_path relative_path : PyStr)
    (raw_content : PyStr) (metadata : PyStr) : Option SolanaDocument :=
  if (pyStrip raw_content).isEmpty then none
  else some
    { file_path := file_path
      relative_path := relative_path
      content := clean_markdown_content raw_content
      metadata := metadata }

/-- `ComprehensiveSolanaProcessor.process_documentation_file`
(`ingest_solana_comprehensive.py` lines 221-294): a PDF always yields a
document whose content is the PDF template; a text file whose raw content
strips to the empty string yields `None`; otherwise the document carries the
cleaned content. -/
def process_documentation_file (file_path relative_path : PyStr)
    (file_type : PyStr) (raw_content : PyStr) (title metadata : PyStr) :
    Option SolanaDocument :=
  if file_type == "pdf".toList then
    some
      { file_path := file_path
        relative_path := relative_path
        content := pdfContentTemplate title relative_path
        metadata := metadata }
  else if (pyStrip raw_content).isEmpty then none
  else some
    { file_path := file_path
      relative_path := relative_path
      content := clean_content raw_content file_type
      metadata := metadata }

/- ### Concrete fixtures used by the witness theorems -/

/-- A concrete insert used by witnesses. -/
def sampleInsert : DocInsert :=
  { doc_type := "birdeye".toList
    source_name := "birdeye-api".toList
    doc_path := "get_defi_price".toList
    content := "new content".toList
    metadata := "meta".toList
    embedding := [1, 2]
    token_count := 2 }

/-- A concrete existing row sharing `sampleInsert`'s composite key. -/
def sampleRow : DocRow :=
  { doc_type := "birdeye".toList
    source_name := "birdeye-api".toList
    doc_path := "get_defi_price".toList
    content := "old content".toList
    metadata := "old".toList
    embedding := [0]
    token_count := 1
    created_at := 1
    updated_at := 1 }

/-- A concrete BirdEye endpoint used by witnesses. -/
def sampleEndpoint : BirdEyeEndpoint :=
  { url := "https://docs.birdeye.so/reference/get-defi-price".toList
    title := "Price".toList
    method := "GET".toList
    path := "/defi/price".toList
    content := "# Price doc".toList
    metadata := "meta".toList }

/-- A concrete Solana document used by witnesses. -/
def sampleSolanaDoc : SolanaDocument :=
  { file_path := "solana-agave/docs/src/consensus.md".toList
    relative_path := "docs/src/consensus.md".toList
    content := "# Consensus".toList
    metadata := "meta".toList }

/- ### Helper lemmas about the upsert -/

/-- The `DO UPDATE` clause does not touch the key columns. -/
theorem keyMatches_applyUpdate (r : DocRow) (d d' : DocInsert) (now : Nat) :
    keyMatches (applyUpdate r d now) d' = keyMatches r d' := rfl

/-- A freshly inserted row conflicts with its own insert. -/
theorem keyMatches_insertRow (d : DocInsert) (now : Nat) :
    keyMatches (insertRow d now) d = true := by
  simp [keyMatches, insertRow]

/-- `keyMatches` decides equality of composite keys. -/
theorem keyMatches_iff (r : DocRow) (d : DocInsert) :
    keyMatches r d = true ↔ rowKey r = insertKey d := by
  simp [keyMatches, rowKey, insertKey, Prod.ext_iff, and_assoc]

/-- The key of the updated row is the key of the old row. -/
theorem rowKey_applyUpdate (r : DocRow) (d : DocInsert) (now : Nat) :
    rowKey (applyUpdate r d now) = rowKey r := rfl

/-- The key of a fresh row is the insert's key. -/
theorem rowKey_insertRow (d : DocInsert) (now : Nat) :
    rowKey (insertRow d now) = insertKey d := rfl

/-- The per-row function of the update branch never changes a row's key. -/
theorem rowKey_updateBranch (r : DocRow) (d : DocInsert) (now : Nat) :
    rowKey (if keyMatches r d then applyUpdate r d now else r) = rowKey r := by
  by_cases hm : keyMatches r d <;> simp [hm, rowKey_applyUpdate]

/-- Unfolding of the upsert in the conflict case. -/
theorem documentsUpsert_pos (tbl : List DocRow) (d : DocInsert) (now : Nat)
    (h : tbl.any (fun r => keyMatches r d) = true) :
    documentsUpsert tbl d now =
      tbl.map (fun r => if keyMatches r d then applyUpdate r d now else r) := by
  rw [documentsUpsert, if_pos h]

/-- Unfolding of the upsert in the no-conflict case. -/
theorem documentsUpsert_neg (tbl : List DocRow) (d : DocInsert) (now : Nat)
    (h : tbl.any (fun r => keyMatches r d) = false) :
    documentsUpsert tbl d now = tbl ++ [insertRow d now] := by
  rw [documentsUpsert, if_neg (by simp [h])]

/-- Claim C1: the document upsert is idempotent.  For every documents-table
state with pairwise-distinct `(doc_type, source_name, doc_path)` keys and
every document row with its embedding, executing the store statement of
`store_document` / `store_endpoints` / `store_documents` twice with the same
inputs yields the same table contents as executing it once, up to the
`updated_at` timestamp. -/
theorem claim_C1_upsert_idempotent (tbl : List DocRow) (d : DocInsert)
    (t₁ t₂ : Nat) (_hdist : keysDistinct tbl) :
    eraseUpdatedAt (documentsUpsert (documentsUpsert tbl d t₁) d t₂) =
      eraseUpdatedAt (documentsUpsert tbl d t₁) := by
  by_cases h : tbl.any (fun r => keyMatches r d) = true
  · rw [documentsUpsert_pos tbl d t₁ h]
    have h₂ :
        (tbl.map (fun r =>
          if keyMatches r d then applyUpdate r d t₁ else r)).any
            (fun r => keyMatches r d) = true := by
      obtain ⟨r, hr, hm⟩ := List.any_eq_true.mp h
      refine List.any_eq_true.mpr
        ⟨if keyMatches r d then applyUpdate r d t₁ else r,
          List.mem_map_of_mem _ hr, ?_⟩
      rw [if_pos hm, keyMatches_applyUpdate]
      exact hm
    rw [documentsUpsert_pos _ d t₂ h₂, eraseUpdatedAt, eraseUpdatedAt]
    simp only [List.map_map]
    apply List.map_congr_left
    intro r _
    by_cases hm : keyMatches r d
    · have hm₂ : keyMatches (applyUpdate r d t₁) d = true := by
        rw [keyMatches_applyUpdate]; exact hm
      simp only [Function.comp_apply]
      rw [if_pos hm, if_pos hm₂]
      simp [applyUpdate]
    · simp only [Function.comp_apply]
      rw [if_neg hm, if_neg hm]
  · rw [documentsUpsert_neg tbl d t₁ (by simpa using h)]
    have h₂ : (tbl ++ [insertRow d t₁]).any (fun r => keyMatches r d) = true := by
      simp [List.any_append, keyMatches_insertRow]
    rw [documentsUpsert_pos _ d t₂ h₂]
    have hall : ∀ r ∈ tbl, keyMatches r d = false := by
      intro r hr
      simpa using List.any_eq_false.mp (by simpa using h) r hr
    rw [List.map_append, List.map_cons, List.map_nil,
      if_pos (keyMatches_insertRow d t₁)]
    have htbl :
        tbl.map (fun r => if keyMatches r d then applyUpdate r d t₂ else r) =
          tbl := by
      conv_rhs => rw [← List.map_id tbl]
      apply List.map_congr_left
      intro r hr
      simp [hall r hr]
    rw [htbl, eraseUpdatedAt, eraseUpdatedAt, List.map_append,
      List.map_append]
    congr 1

/-- Witness for claim C1 at a concrete one-row table. -/
theorem claim_C1_witness :
    eraseUpdatedAt
        (documentsUpsert (documentsUpsert [sampleRow] sampleInsert 2)
          sampleInsert 3) =
      eraseUpdatedAt (documentsUpsert [sampleRow] sampleInsert 2) :=
  claim_C1_upsert_idempotent [sampleRow] sampleInsert 2 3
    (List.pairwise_singleton _ _)

/-- A single upsert preserves distinctness of the composite keys. -/
theorem documentsUpsert_keysDistinct (tbl : List DocRow) (d : DocInsert)
    (now : Nat) (h : keysDistinct tbl) :
    keysDistinct (documentsUpsert tbl d now) := by
  by_cases hc : tbl.any (fun r => keyMatches r d) = true
  · rw [documentsUpsert_pos tbl d now hc]
    unfold keysDistinct at h ⊢
    rw [List.pairwise_map]
    exact h.imp (fun {a b} hab => by
      rw [rowKey_updateBranch, rowKey_updateBranch]; exact hab)
  · rw [documentsUpsert_neg tbl d now (by simpa using hc)]
    unfold keysDistinct at h ⊢
    rw [List.pairwise_append]
    refine ⟨h, List.pairwise_singleton _ _, ?_⟩
    intro a ha b hb
    rw [List.mem_singleton] at hb
    subst hb
    rw [rowKey_insertRow]
    intro hkey
    have : keyMatches a d = true := (keyMatches_iff a d).mpr hkey
    have hfalse : keyMatches a d = false := by
      simpa using List.any_eq_false.mp (by simpa using hc) a ha
    rw [this] at hfalse
    exact Bool.noConfusion hfalse

/-- Claim C2: uniqueness of the composite key is an invariant.  Starting
from a table in which no two rows share `(doc_type, source_name, doc_path)`,
after any sequence of store operations no two rows share the key; moreover
an insert whose key already exists updates in place, leaving the number of
rows unchanged. -/
theorem claim_C2_key_uniqueness_invariant (tbl : List DocRow)
    (ops : List (DocInsert × Nat)) (h : keysDistinct tbl) :
    keysDistinct (storeSequence tbl ops) ∧
      ∀ d now, tbl.any (fun r => keyMatches r d) = true →
        (documentsUpsert tbl d now).length = tbl.length := by
  constructor
  · induction ops generalizing tbl with
    | nil => simpa [storeSequence] using h
    | cons op rest ih =>
      rw [storeSequence, List.foldl_cons]
      exact ih _ (documentsUpsert_keysDistinct tbl op.1 op.2 h)
  · intro d now hc
    rw [documentsUpsert_pos tbl d now hc, List.length_map]

/-- Witness for claim C2: a sequence of two conflicting stores on a
one-row table. -/
theorem claim_C2_witness :
    keysDistinct (storeSequence [sampleRow] [(sampleInsert, 2), (sampleInsert, 3)]) ∧
      ∀ d now, [sampleRow].any (fun r => keyMatches r d) = true →
        (documentsUpsert [sampleRow] d now).length = [sampleRow].length :=
  claim_C2_key_uniqueness_invariant [sampleRow]
    [(sampleInsert, 2), (sampleInsert, 3)] (List.pairwise_singleton _ _)

/-- The conflict branch of the upsert rewrites exactly the unique matching
row. -/
theorem mapUpdateEqSet (d : DocInsert) (now : Nat) :
    ∀ (tbl : List DocRow) (k : Nat) (hk : k < tbl.length),
      keysDistinct tbl → keyMatches (tbl.get ⟨k, hk⟩) d = true →
      tbl.map (fun r => if keyMatches r d then applyUpdate r d now else r) =
        tbl.set k (applyUpdate (tbl.get ⟨k, hk⟩) d now) := by
  intro tbl
  induction tbl with
  | nil => intro k hk; exact absurd hk (by simp)
  | cons x xs ih =>
    intro k hk hdist hmatch
    have hpair := List.pairwise_cons.mp hdist
    cases k with
    | zero =>
      have hx : (x :: xs).get ⟨0, hk⟩ = x := rfl
      rw [hx] at hmatch ⊢
      rw [List.map_cons, if_pos hmatch]
      have hxs : xs.map
          (fun r => if keyMatches r d then applyUpdate r d now else r) = xs := by
        conv_rhs => rw [← List.map_id xs]
        apply List.map_congr_left
        intro r hr
        have hne : rowKey x ≠ rowKey r := hpair.1 r hr
        have : keyMatches r d ≠ true := by
          intro habs
          apply hne
          rw [(keyMatches_iff x d).mp hmatch, (keyMatches_iff r d).mp habs]
        simp [this]
      rw [hxs]
      rfl
    | succ k =>
      have hk' : k < xs.length := by simpa using hk
      have hget : (x :: xs).get ⟨k + 1, hk⟩ = xs.get ⟨k, hk'⟩ := rfl
      rw [hget] at hmatch
      have hxne : keyMatches x d ≠ true := by
        intro habs
        apply hpair.1 (xs.get ⟨k, hk'⟩) (xs.get_mem k hk')
        rw [(keyMatches_iff x d).mp habs, (keyMatches_iff _ d).mp hmatch]
      rw [List.map_cons, if_neg hxne, ih k hk' hpair.2 hmatch]
      rfl

/-- Claim C7: deduplication on upsert updates only the document's payload.
When the insert's `(doc_type, source_name, doc_path)` key collides with the
row at position `k`, the resulting table is the old table with exactly that
row replaced, and the replacement changes exactly `content`, `metadata`,
`embedding`, `token_count` and `updated_at`, keeping the key columns and
`created_at` of the old row and every other row untouched. -/
theorem claim_C7_update_frame (tbl : List DocRow) (d : DocInsert)
    (now k : Nat) (hk : k < tbl.length) (hdist : keysDistinct tbl)
    (hmatch : keyMatches (tbl.get ⟨k, hk⟩) d = true) :
    documentsUpsert tbl d now =
      tbl.set k
        { doc_type := (tbl.get ⟨k, hk⟩).doc_type
          source_name := (tbl.get ⟨k, hk⟩).source_name
          doc_path := (tbl.get ⟨k, hk⟩).doc_path
          content := d.content
          metadata := d.metadata
          embedding := d.embedding
          token_count := d.token_count
          created_at := (tbl.get ⟨k, hk⟩).created_at
          updated_at := now } := by
  have hc : tbl.any (fun r => keyMatches r d) = true :=
    List.any_eq_true.mpr ⟨tbl.get ⟨k, hk⟩, tbl.get_mem k hk, hmatch⟩
  rw [documentsUpsert_pos tbl d now hc]
  exact mapUpdateEqSet d now tbl k hk hdist hmatch

/-- Witness for claim C7 on a concrete one-row table. -/
theorem claim_C7_witness :
    documentsUpsert [sampleRow] sampleInsert 5 =
      [{ doc_type := sampleRow.doc_type
         source_name := sampleRow.source_name
         doc_path := sampleRow.doc_path
         content := sampleInsert.content
         metadata := sampleInsert.metadata
         embedding := sampleInsert.embedding
         token_count := sampleInsert.token_count
         created_at := sampleRow.created_at
         updated_at := 5 }] :=
  claim_C7_update_frame [sampleRow] sampleInsert 5 0 (by decide)
    (List.pairwise_singleton _ _) (by decide)

/-- Every row of an upserted table is an old row or carries the insert's
`doc_path`. -/
theorem documentsUpsert_mem (tbl : List DocRow) (d : DocInsert) (now : Nat) :
    ∀ r ∈ documentsUpsert tbl d now, r ∈ tbl ∨ r.doc_path = d.doc_path := by
  intro r hr
  by_cases hc : tbl.any (fun s => keyMatches s d) = true
  · rw [documentsUpsert_pos tbl d now hc] at hr
    obtain ⟨x, hx, hfx⟩ := List.mem_map.mp hr
    by_cases hm : keyMatches x d
    · right
      rw [← hfx, if_pos hm]
      have hkey := (keyMatches_iff x d).mp hm
      have h3 : x.doc_path = d.doc_path :=
        congrArg (fun t => t.2.2) hkey
      simpa [applyUpdate] using h3
    · left
      rw [← hfx, if_neg hm]
      exact hx
  · rw [documentsUpsert_neg tbl d now (by simpa using hc)] at hr
    rcases List.mem_append.mp hr with h | h
    · exact Or.inl h
    · right
      rw [List.mem_singleton] at h
      subst h
      rfl

/-- Claim C3: the `doc_path` key of every stored document is derived as
specified — `ingest_birdeye.py`: lowercased method concatenated with the
path with `'/'` replaced by `'_'`; `ingest_birdeye_simple.py`: uppercased
method, a space, and the path; `ingest_solana.py` /
`ingest_solana_comprehensive.py`: the file's repository-relative path.
Every row of the stored table either predates the store or carries the
derived key. -/
theorem claim_C3_doc_path_derivation (tbl : List DocRow) (now : Nat) :
    (∀ (e : BirdEyeEndpoint) (emb : Embedding),
        ∀ r ∈ store_document tbl e emb now,
          r ∈ tbl ∨ r.doc_path = pyLower e.method ++ replaceSlashes e.path) ∧
    (∀ (method path title description content metadata : PyStr)
        (emb : Embedding),
        ∀ r ∈ store_endpoint_simple tbl
            (mkSimpleEndpoint method path title description content metadata)
            emb now,
          r ∈ tbl ∨ r.doc_path = pyUpper method ++ " ".toList ++ path) ∧
    (∀ (doc : SolanaDocument) (emb : Embedding),
        ∀ r ∈ store_solana_document tbl doc emb now,
          r ∈ tbl ∨ r.doc_path = doc.relative_path) := by
  refine ⟨?_, ?_, ?_⟩
  · intro e emb r hr
    simp only [store_document] at hr
    simpa [birdeyeDocPath] using documentsUpsert_mem tbl _ now r hr
  · intro method path title description content metadata emb r hr
    simp only [store_endpoint_simple] at hr
    simpa [simpleDocPath, mkSimpleEndpoint] using
      documentsUpsert_mem tbl _ now r hr
  · intro doc emb r hr
    simp only [store_solana_document] at hr
    exact documentsUpsert_mem tbl _ now r hr

/-- Witness for claim C3 at concrete endpoints stored into the empty
table. -/
theorem claim_C3_witness :
    ((store_document [] sampleEndpoint [1] 7).head (by decide) ∈
        ([] : List DocRow) ∨
      ((store_document [] sampleEndpoint [1] 7).head (by decide)).doc_path =
        pyLower sampleEndpoint.method ++ replaceSlashes sampleEndpoint.path) ∧
    ((store_endpoint_simple []
          (mkSimpleEndpoint "get".toList "/defi/price".toList "t".toList
            "d".toList "c".toList "m".toList) [1] 7).head (by decide) ∈
        ([] : List DocRow) ∨
      ((store_endpoint_simple []
          (mkSimpleEndpoint "get".toList "/defi/price".toList "t".toList
            "d".toList "c".toList "m".toList) [1] 7).head
            (by decide)).doc_path =
        pyUpper "get".toList ++ " ".toList ++ "/defi/price".toList) ∧
    ((store_solana_document [] sampleSolanaDoc [1] 7).head (by decide) ∈
        ([] : List DocRow) ∨
      ((store_solana_document [] sampleSolanaDoc [1] 7).head
          (by decide)).doc_path = sampleSolanaDoc.relative_path) :=
  ⟨(claim_C3_doc_path_derivation [] 7).1 sampleEndpoint [1] _
      (List.head_mem _),
    (claim_C3_doc_path_derivation [] 7).2.1 "get".toList "/defi/price".toList
      "t".toList "d".toList "c".toList "m".toList [1] _ (List.head_mem _),
    (claim_C3_doc_path_derivation [] 7).2.2 sampleSolanaDoc [1] _
      (List.head_mem _)⟩

/-- Counterexample to claim C4 as stated: for the 30,001-character input,
the string actually submitted by `generate_embedding` has length
30,015 > `MAX_CHARS`, because the `"... [TRUNCATED]"` marker is appended
after the first 30,000 characters. -/
theorem claim_C4_counterexample :
    ¬ (truncateForEmbedding (List.replicate 30001 'a')).length ≤ MAX_CHARS := by
  have h1 : (truncateForEmbedding (List.replicate 30001 'a')).length = 30015 := by
    rw [truncateForEmbedding, if_pos]
    · rw [List.length_append, List.length_take, List.length_replicate]
      decide
    · rw [List.length_replicate]
      decide
  rw [h1]
  decide

/-- Claim C4, amended: the string submitted by `generate_embedding` has
length at most `MAX_CHARS` plus the length of the `"... [TRUNCATED]"`
marker (30,015 characters); inputs of at most `MAX_CHARS` characters are
submitted unchanged, and longer inputs are cut to their first `MAX_CHARS`
characters with the marker appended, for a submitted length of exactly
30,015. -/
theorem claim_C4_truncation_amended (text : PyStr) :
    (truncateForEmbedding text).length ≤ MAX_CHARS + truncMarker.length ∧
      (text.length ≤ MAX_CHARS → truncateForEmbedding text = text) ∧
      (text.length > MAX_CHARS →
        truncateForEmbedding text = text.take MAX_CHARS ++ truncMarker ∧
          (truncateForEmbedding text).length =
            MAX_CHARS + truncMarker.length) := by
  refine ⟨?_, ?_, ?_⟩
  · by_cases h : text.length > MAX_CHARS
    · rw [truncateForEmbedding, if_pos h, List.length_append,
        List.length_take]
      have := Nat.min_le_left MAX_CHARS text.length
      omega
    · rw [truncateForEmbedding, if_neg h]
      omega
  · intro h
    rw [truncateForEmbedding, if_neg (by omega)]
  · intro h
    refine ⟨by rw [truncateForEmbedding, if_pos h], ?_⟩
    rw [truncateForEmbedding, if_pos h, List.length_append, List.length_take]
    have : min MAX_CHARS text.length = MAX_CHARS :=
      Nat.min_eq_left (Nat.le_of_lt h)
    omega

/-- Witness for the amended claim C4 at a short and a long concrete
input. -/
theorem claim_C4_witness :
    truncateForEmbedding ['a'] = ['a'] ∧
      (truncateForEmbedding (List.replicate 30001 'b')).length =
        MAX_CHARS + truncMarker.length :=
  ⟨(claim_C4_truncation_amended ['a']).2.1 (by decide),
    ((claim_C4_truncation_amended (List.replicate 30001 'b')).2.2
      (by rw [List.length_replicate]; decide)).2⟩

/-- Positions of the steps of document `i` in the trace of a run over `n`
documents: fetch at `i`, embedding at `n + i`, upsert at `n + n + i`. -/
theorem ingestionTrace_getElem (n i : Nat) (h : i < n) :
    (ingestionTrace n)[i]? = some (RunStep.fetchDoc i) ∧
      (ingestionTrace n)[n + i]? = some (RunStep.embedDoc i) ∧
      (ingestionTrace n)[n + n + i]? = some (RunStep.upsertDoc i) := by
  unfold ingestionTrace
  refine ⟨?_, ?_, ?_⟩
  · rw [List.getElem?_append_left (by simpa using h), List.getElem?_map,
      List.getElem?_range h]
    rfl
  · rw [List.getElem?_append_right (by simp)]
    have hidx : n + i - ((List.range n).map RunStep.fetchDoc).length = i := by
      simp
    rw [hidx, List.getElem?_append_left (by simpa using h),
      List.getElem?_map, List.getElem?_range h]
    rfl
  · rw [List.getElem?_append_right (by simp; omega)]
    have hidx : n + n + i - ((List.range n).map RunStep.fetchDoc).length =
        n + i := by
      simp; omega
    rw [hidx, List.getElem?_append_right (by simp)]
    have hidx₂ : n + i - ((List.range n).map RunStep.embedDoc).length = i := by
      simp
    rw [hidx₂, List.getElem?_map, List.getElem?_range h]
    rfl

/-- Counterexample to claim C5 as stated: in a run over two documents, the
only upsert step of document 0 occurs after the fetch step of document 1,
so the first document's upsert does not complete before the second
document's fetch begins. -/
theorem claim_C5_counterexample :
    ingestionTrace 2 =
        [RunStep.fetchDoc 0, RunStep.fetchDoc 1, RunStep.embedDoc 0,
          RunStep.embedDoc 1, RunStep.upsertDoc 0, RunStep.upsertDoc 1] ∧
      (ingestionTrace 2).count (RunStep.upsertDoc 0) = 1 ∧
      ¬ occursBefore (RunStep.upsertDoc 0) (RunStep.fetchDoc 1)
          (ingestionTrace 2) := by
  have htr : ingestionTrace 2 =
      [RunStep.fetchDoc 0, RunStep.fetchDoc 1, RunStep.embedDoc 0,
        RunStep.embedDoc 1, RunStep.upsertDoc 0, RunStep.upsertDoc 1] := by
    decide
  refine ⟨htr, by decide, ?_⟩
  rintro ⟨p, q, hpq, hp, hq⟩
  rw [htr] at hp hq
  have hp6 : p < 6 := by
    by_contra hge
    rw [List.getElem?_eq_none (by simpa using Nat.le_of_not_lt hge)] at hp
    exact Option.noConfusion hp
  have hq6 : q < 6 := by
    by_contra hge
    rw [List.getElem?_eq_none (by simpa using Nat.le_of_not_lt hge)] at hq
    exact Option.noConfusion hq
  interval_cases p <;> interval_cases q <;> simp_all

/-- Claim C5, amended: each run is phased rather than interleaved.  Within
a run over `n` documents, fetches happen in document order, then all
embedding calls in document order, then all upserts in document order; in
particular every fetch precedes every embedding call and every embedding
call precedes every upsert — and the fetch of a later document precedes the
upsert of an earlier one. -/
theorem claim_C5_phased_order (n i j : Nat) (hi : i < n) (hj : j < n) :
    (i < j →
      occursBefore (RunStep.fetchDoc i) (RunStep.fetchDoc j)
          (ingestionTrace n) ∧
        occursBefore (RunStep.embedDoc i) (RunStep.embedDoc j)
          (ingestionTrace n) ∧
        occursBefore (RunStep.upsertDoc i) (RunStep.upsertDoc j)
          (ingestionTrace n)) ∧
      occursBefore (RunStep.fetchDoc i) (RunStep.embedDoc j)
        (ingestionTrace n) ∧
      occursBefore (RunStep.embedDoc i) (RunStep.upsertDoc j)
        (ingestionTrace n) ∧
      occursBefore (RunStep.fetchDoc j) (RunStep.upsertDoc i)
        (ingestionTrace n) := by
  obtain ⟨hfi, hei, hui⟩ := ingestionTrace_getElem n i hi
  obtain ⟨hfj, hej, huj⟩ := ingestionTrace_getElem n j hj
  exact ⟨fun hij =>
      ⟨⟨i, j, hij, hfi, hfj⟩, ⟨n + i, n + j, by omega, hei, hej⟩,
        ⟨n + n + i, n + n + j, by omega, hui, huj⟩⟩,
    ⟨i, n + j, by omega, hfi, hej⟩,
    ⟨n + i, n + n + j, by omega, hei, huj⟩,
    ⟨j, n + n + i, by omega, hfj, hui⟩⟩

/-- Witness for the amended claim C5 at the two-document run. -/
theorem claim_C5_witness :
    occursBefore (RunStep.fetchDoc 1) (RunStep.upsertDoc 0)
      (ingestionTrace 2) :=
  (claim_C5_phased_order 2 0 1 (by decide) (by decide)).2.2.2

/-- `extract_endpoint_data` issues at most one HTTP request. -/
theorem extract_requests_le_one (url : PyStr) (outcome : FetchOutcome) :
    (extract_endpoint_data url outcome).requests ≤ 1 := by
  unfold extract_endpoint_data
  split
  · decide
  · cases outcome <;> simp

/-- The fetch loop accumulator: successes are appended in order and the
request counts are summed. -/
theorem processUrls_foldl (oracle : PyStr → FetchOutcome)
    (urls : List PyStr) :
    ∀ acc : List BirdEyeEndpoint × Nat,
      urls.foldl
          (fun acc url =>
            (acc.1 ++ (extract_endpoint_data url (oracle url)).endpoint.toList,
              acc.2 + (extract_endpoint_data url (oracle url)).requests))
          acc =
        (acc.1 ++
            urls.filterMap
              (fun u => (extract_endpoint_data u (oracle u)).endpoint),
          acc.2 +
            (urls.map
              (fun u => (extract_endpoint_data u (oracle u)).requests)).sum) := by
  induction urls with
  | nil => intro acc; simp
  | cons u rest ih =>
    intro acc
    rw [List.foldl_cons, ih]
    cases h : (extract_endpoint_data u (oracle u)).endpoint with
    | none =>
      simp [List.filterMap_cons, h, Nat.add_assoc]
    | some e =>
      simp [List.filterMap_cons, h, Nat.add_assoc, List.append_assoc]

/-- Claim C6: HTTP fetching is retry-free and failures are skipped, not
fatal.  For every endpoint URL, `extract_endpoint_data` issues at most one
HTTP request and never raises: a URL without `'/reference/'` yields `None`
with no request, and a raised exception or a missing `'data'` section
yields `None`.  The main loop processes each URL exactly once, in order,
keeping exactly the successful extractions and issuing at most one request
per URL. -/
theorem claim_C6_retry_free_fetch (url : PyStr) (outcome : FetchOutcome)
    (urls : List PyStr) (oracle : PyStr → FetchOutcome) :
    (extract_endpoint_data url outcome).requests ≤ 1 ∧
      (hasReferenceSegment url = false →
        extract_endpoint_data url outcome =
          { endpoint := none, requests := 0 }) ∧
      (outcome = FetchOutcome.raised ∨ outcome = FetchOutcome.noData →
        (extract_endpoint_data url outcome).endpoint = none) ∧
      (processUrls urls oracle).1 =
        urls.filterMap
          (fun u => (extract_endpoint_data u (oracle u)).endpoint) ∧
      (processUrls urls oracle).2 ≤ urls.length := by
  refine ⟨extract_requests_le_one url outcome, ?_, ?_, ?_, ?_⟩
  · intro h
    unfold extract_endpoint_data
    rw [if_pos (by simp [h])]
  · intro h
    unfold extract_endpoint_data
    split
    · rfl
    · rcases h with h | h <;> subst h <;> rfl
  · rw [processUrls, processUrls_foldl oracle urls ([], 0)]
    simp
  · rw [processUrls, processUrls_foldl oracle urls ([], 0)]
    simp only []
    calc (([] : List BirdEyeEndpoint), 0).2 +
          (urls.map
            (fun u => (extract_endpoint_data u (oracle u)).requests)).sum ≤
        0 + (urls.map (fun _ => 1)).sum := by
          exact Nat.add_le_add_left
            (List.sum_le_sum (fun u _ => extract_requests_le_one u (oracle u)))
            0
      _ = urls.length := by simp [List.map_const]

/-- Witness for claim C6 at a concrete URL lacking `'/reference/'`, whose
request raises. -/
theorem claim_C6_witness :
    (extract_endpoint_data "plain-url".toList FetchOutcome.raised).requests ≤
        1 ∧
      extract_endpoint_data "plain-url".toList FetchOutcome.raised =
        { endpoint := none, requests := 0 } ∧
      (extract_endpoint_data "plain-url".toList
          FetchOutcome.raised).endpoint = none ∧
      (processUrls ["plain-url".toList] (fun _ => FetchOutcome.raised)).1 =
        ["plain-url".toList].filterMap
          (fun u => (extract_endpoint_data u FetchOutcome.raised).endpoint) ∧
      (processUrls ["plain-url".toList] (fun _ => FetchOutcome.raised)).2 ≤
        ["plain-url".toList].length := by
  have th := claim_C6_retry_free_fetch "plain-url".toList FetchOutcome.raised
    ["plain-url".toList] (fun _ => FetchOutcome.raised)
  exact ⟨th.1, th.2.1 (by decide), th.2.2.1 (Or.inl rfl), th.2.2.2.1,
    th.2.2.2.2⟩

/-- Claim C8: the truncation performed by `generate_embedding` is
idempotent — applying it twice produces the same string as applying it
once.  (A truncated string has length 30,015 and is truncated again, but
its first 30,000 characters and therefore the result are unchanged.) -/
theorem claim_C8_truncation_idempotent (text : PyStr) :
    truncateForEmbedding (truncateForEmbedding text) =
      truncateForEmbedding text := by
  by_cases h : text.length > MAX_CHARS
  · have hres : truncateForEmbedding text =
        text.take MAX_CHARS ++ truncMarker := by
      rw [truncateForEmbedding, if_pos h]
    have htk : (text.take MAX_CHARS).length = MAX_CHARS := by
      rw [List.length_take, Nat.min_eq_left (Nat.le_of_lt h)]
    have hlen : (text.take MAX_CHARS ++ truncMarker).length =
        MAX_CHARS + truncMarker.length := by
      rw [List.length_append, htk]
    rw [hres, truncateForEmbedding, if_pos (by rw [hlen]; decide)]
    congr 1
    exact List.take_left' htk
  · have hres : truncateForEmbedding text = text := by
      rw [truncateForEmbedding, if_neg h]
    rw [hres, hres]

/-- Claim C9: file discovery never selects excluded paths.  Every path
returned by `discover_markdown_files` contains none of the skip patterns
and ends in `.md`; every path returned by `discover_documentation_files`
contains none of the skip patterns and ends in one of the supported
extensions. -/
theorem claim_C9_discovery_respects_skip (files : List PyStr) :
    (∀ p ∈ discover_markdown_files files,
        (∀ pat ∈ skipPatterns, hasSub p pat = false) ∧
          endsWithL p ".md".toList = true) ∧
      ∀ p ∈ discover_documentation_files files,
        (∀ pat ∈ skipPatterns, hasSub p pat = false) ∧
          ∃ ext ∈ supportedExtensions, endsWithL p ext = true := by
  constructor
  · intro p hp
    simp only [discover_markdown_files, List.mem_filter] at hp
    obtain ⟨⟨_, hmd⟩, hskip⟩ := hp
    refine ⟨?_, hmd⟩
    intro pat hpat
    have hnone : isSkipped p = false := by simpa using hskip
    simpa using List.any_eq_false.mp hnone pat hpat
  · intro p hp
    simp only [discover_documentation_files, List.mem_flatMap,
      List.mem_filter] at hp
    obtain ⟨ext, hext, ⟨_, hend⟩, hskip⟩ := hp
    refine ⟨?_, ext, hext, hend⟩
    intro pat hpat
    have hnone : isSkipped p = false := by simpa using hskip
    simpa using List.any_eq_false.mp hnone pat hpat

/-- Witness for claim C9 on a concrete file list. -/
theorem claim_C9_witness :
    hasSub "docs/src/consensus.md".toList "node_modules/".toList = false ∧
      endsWithL "docs/src/consensus.md".toList ".md".toList = true ∧
      hasSub "zk-docs/spec.pdf".toList ".git/".toList = false ∧
      ∃ ext ∈ supportedExtensions,
        endsWithL "zk-docs/spec.pdf".toList ext = true := by
  have h₁ := (claim_C9_discovery_respects_skip
      ["docs/src/consensus.md".toList, "zk-docs/spec.pdf".toList]).1
    "docs/src/consensus.md".toList (by decide)
  have h₂ := (claim_C9_discovery_respects_skip
      ["docs/src/consensus.md".toList, "zk-docs/spec.pdf".toList]).2
    "zk-docs/spec.pdf".toList (by decide)
  exact ⟨h₁.1 "node_modules/".toList (by decide), h₁.2,
    h₂.1 ".git/".toList (by decide), h₂.2⟩

/-- Dropping leading whitespace does not change the non-whitespace
characters. -/
theorem filter_nonws_dropWhile (l : PyStr) :
    (l.dropWhile Char.isWhitespace).filter (fun c => !c.isWhitespace) =
      l.filter (fun c => !c.isWhitespace) := by
  induction l with
  | nil => rfl
  | cons x xs ih =>
    by_cases h : x.isWhitespace
    · rw [List.dropWhile_cons, if_pos h, ih]
      simp [List.filter_cons, h]
    · rw [List.dropWhile_cons, if_neg h]

/-- `strip()` does not change the non-whitespace characters. -/
theorem pyStrip_filter (l : PyStr) :
    (pyStrip l).filter (fun c => !c.isWhitespace) =
      l.filter (fun c => !c.isWhitespace) := by
  rw [pyStrip, List.filter_reverse, filter_nonws_dropWhile,
    List.filter_reverse, List.reverse_reverse, filter_nonws_dropWhile]

/-- `strip()` of an all-whitespace string is empty. -/
theorem pyStrip_nil_of_ws (l : PyStr) (h : ∀ c ∈ l, c.isWhitespace) :
    pyStrip l = [] := by
  rw [pyStrip, List.dropWhile_eq_nil_iff.mpr h]
  rfl

/-- Rewriting a whitespace run yields only whitespace characters. -/
theorem collapseWsRun_ws (run : PyStr) (h : ∀ c ∈ run, c.isWhitespace) :
    ∀ c ∈ collapseWsRun run, c.isWhitespace := by
  intro c hc
  rw [collapseWsRun] at hc
  split at hc
  · rcases List.mem_append.mp hc with hc | hc
    · rcases List.mem_append.mp hc with hc | hc
      · exact h c ((List.takeWhile_prefix _).sublist.subset hc)
      · have hc' : c ∈ ['\n', '\n'] := hc
        have : c = '\n' := by
          rcases List.mem_cons.mp hc' with h1 | h1
          · exact h1
          · simpa using h1
        subst this
        decide
    · rw [List.mem_reverse] at hc
      have := (List.takeWhile_prefix _).sublist.subset hc
      rw [List.mem_reverse] at this
      exact h c this
  · exact h c hc

/-- The run-collapsing substitution does not change the non-whitespace
characters. -/
theorem collapseAux_filter (l : PyStr) :
    ∀ run : PyStr, (∀ c ∈ run, c.isWhitespace) →
      (collapseAux run l).filter (fun c => !c.isWhitespace) =
        l.filter (fun c => !c.isWhitespace) := by
  induction l with
  | nil =>
    intro run hrun
    rw [collapseAux]
    refine List.filter_eq_nil_iff.mpr ?_
    intro a ha
    have : a.isWhitespace :=
      collapseWsRun_ws run.reverse
        (fun c hc => hrun c (List.mem_reverse.mp hc)) a ha
    simp [this]
  | cons c rest ih =>
    intro run hrun
    rw [collapseAux]
    by_cases h : c.isWhitespace
    · rw [if_pos h]
      rw [ih (c :: run) (by
        intro x hx
        rcases List.mem_cons.mp hx with hx | hx
        · subst hx; exact h
        · exact hrun x hx)]
      simp [List.filter_cons, h]
    · rw [if_neg h, List.filter_append]
      have hA : (collapseWsRun run.reverse).filter
          (fun c => !c.isWhitespace) = [] := by
        refine List.filter_eq_nil_iff.mpr ?_
        intro a ha
        have : a.isWhitespace :=
          collapseWsRun_ws run.reverse
            (fun x hx => hrun x (List.mem_reverse.mp hx)) a ha
        simp [this]
      rw [hA, List.nil_append, List.filter_cons, List.filter_cons]
      simp only [h]
      rw [ih [] (by intro x hx; exact absurd hx (List.not_mem_nil x))]

/-- `collapseBlankRuns` does not change the non-whitespace characters. -/
theorem collapseBlankRuns_filter (l : PyStr) :
    (collapseBlankRuns l).filter (fun c => !c.isWhitespace) =
      l.filter (fun c => !c.isWhitespace) := by
  rw [collapseBlankRuns]
  exact collapseAux_filter l [] (by intro x hx; exact absurd hx (List.not_mem_nil x))

/-- Removing the leading blank block does not change the non-whitespace
characters. -/
theorem dropLeadingBlank_filter (l : PyStr) :
    (dropLeadingBlank l).filter (fun c => !c.isWhitespace) =
      l.filter (fun c => !c.isWhitespace) := by
  rw [dropLeadingBlank]
  by_cases h : (l.takeWhile Char.isWhitespace).contains '\n'
  · rw [if_pos h, List.filter_append]
    have hA : ((l.takeWhile Char.isWhitespace).reverse.takeWhile
        (fun c => c ≠ '\n')).reverse.filter (fun c => !c.isWhitespace) = [] := by
      refine List.filter_eq_nil_iff.mpr ?_
      intro a ha
      rw [List.mem_reverse] at ha
      have ha₂ := (List.takeWhile_prefix _).sublist.subset ha
      rw [List.mem_reverse] at ha₂
      have : a.isWhitespace := List.mem_takeWhile_imp ha₂
      simp [this]
    rw [hA, List.nil_append, filter_nonws_dropWhile]
  · rw [if_neg h]

/-- `clean_markdown_content` does not change the non-whitespace
characters. -/
theorem clean_markdown_filter (l : PyStr) :
    (clean_markdown_content l).filter (fun c => !c.isWhitespace) =
      l.filter (fun c => !c.isWhitespace) := by
  rw [clean_markdown_content, pyStrip_filter, dropLeadingBlank_filter,
    collapseBlankRuns_filter]

/-- A text containing a non-whitespace character cleans to a non-empty
text. -/
theorem clean_markdown_ne_nil (l : PyStr)
    (h : ∃ c ∈ l, ¬ c.isWhitespace) : clean_markdown_content l ≠ [] := by
  intro habs
  obtain ⟨c, hc, hnw⟩ := h
  have h1 := clean_markdown_filter l
  rw [habs] at h1
  have h2 : c ∈ l.filter (fun c => !c.isWhitespace) :=
    List.mem_filter.mpr ⟨hc, by simp [hnw]⟩
  rw [← h1] at h2
  exact absurd h2 (List.not_mem_nil c)

/-- A text whose `strip()` is non-empty contains a non-whitespace
character. -/
theorem exists_nonws_of_strip (l : PyStr)
    (h : (pyStrip l).isEmpty = false) : ∃ c ∈ l, ¬ c.isWhitespace := by
  by_contra hall
  have hws : ∀ c ∈ l, c.isWhitespace := by
    intro c hc
    by_contra hnw
    exact hall ⟨c, hc, hnw⟩
  rw [pyStrip_nil_of_ws l hws] at h
  exact absurd h (by decide)

/-- Claim C10: empty files are silently dropped at the processing boundary.
A raw content that is empty or all whitespace makes `process_markdown_file`
(and, for non-PDF file types, `process_documentation_file`) return `None`,
so the file contributes no row; and every document either function does
produce carries non-empty content. -/
theorem claim_C10_empty_files_dropped (fp rp ft raw title md : PyStr) :
    ((∀ c ∈ raw, c.isWhitespace) →
        process_markdown_file fp rp raw md = none ∧
          (ft ≠ "pdf".toList →
            process_documentation_file fp rp ft raw title md = none)) ∧
      (∀ doc, process_markdown_file fp rp raw md = some doc →
        doc.content ≠ []) ∧
      (∀ doc, process_documentation_file fp rp ft raw title md = some doc →
        doc.content ≠ []) := by
  refine ⟨?_, ?_, ?_⟩
  · intro hws
    have hnil : pyStrip raw = [] := pyStrip_nil_of_ws raw hws
    constructor
    · rw [process_markdown_file, if_pos (by rw [hnil]; rfl)]
    · intro hft
      rw [process_documentation_file,
        if_neg (fun habs => hft (by simpa using habs)),
        if_pos (by rw [hnil]; rfl)]
  · intro doc hdoc
    rw [process_markdown_file] at hdoc
    by_cases hempty : (pyStrip raw).isEmpty = true
    · rw [if_pos hempty] at hdoc
      exact Option.noConfusion hdoc
    · rw [if_neg hempty] at hdoc
      have hd := Option.some.inj hdoc
      rw [← hd]
      show clean_markdown_content raw ≠ []
      exact clean_markdown_ne_nil raw
        (exists_nonws_of_strip raw (by simpa using hempty))
  · intro doc hdoc
    rw [process_documentation_file] at hdoc
    by_cases hpdf : (ft == "pdf".toList) = true
    · rw [if_pos hpdf] at hdoc
      have hd := Option.some.inj hdoc
      rw [← hd]
      show pdfContentTemplate title rp ≠ []
      refine List.length_pos.mp ?_
      rw [pdfContentTemplate]
      simp only [List.length_append]
      have hlen : ("# ".toList : PyStr).length = 2 := by decide
      omega
    · rw [if_neg hpdf] at hdoc
      by_cases hempty : (pyStrip raw).isEmpty = true
      · rw [if_pos hempty] at hdoc
        exact Option.noConfusion hdoc
      · rw [if_neg hempty] at hdoc
        have hd := Option.some.inj hdoc
        rw [← hd]
        show clean_content raw ft ≠ []
        have hstrip : pyStrip raw ≠ [] := by
          intro h0
          rw [h0] at hempty
          exact hempty rfl
        rw [clean_content]
        by_cases h1 : (ft == "md".toList || ft == "mdx".toList) = true
        · rw [if_pos h1]
          exact clean_markdown_ne_nil raw
            (exists_nonws_of_strip raw (by simpa using hempty))
        · rw [if_neg h1]
          by_cases h2 : (ft == "bob".toList || ft == "msc".toList) = true
          · rw [if_pos h2]
            exact hstrip
          · rw [if_neg h2, if_neg hpdf]
            exact hstrip

/-- Witness for claim C10: an all-whitespace file is dropped and a
non-empty file keeps non-empty content. -/
theorem claim_C10_witness :
    (process_markdown_file "f".toList "r".toList "  \n ".toList "m".toList =
        none ∧
      process_documentation_file "f".toList "r".toList "md".toList
          "  \n ".toList "t".toList "m".toList = none) ∧
      ({ file_path := "f".toList
         relative_path := "r".toList
         content := clean_markdown_content "# Hi".toList
         metadata := "m".toList } : SolanaDocument).content ≠ [] := by
  constructor
  · refine ⟨((claim_C10_empty_files_dropped "f".toList "r".toList
        "md".toList "  \n ".toList "t".toList "m".toList).1
        (by decide)).1, ?_⟩
    exact ((claim_C10_empty_files_dropped "f".toList "r".toList "md".toList
        "  \n ".toList "t".toList "m".toList).1 (by decide)).2 (by decide)
  · exact (claim_C10_empty_files_dropped "f".toList "r".toList "md".toList
        "# Hi".toList "t".toList "m".toList).2.1 _ (by decide)
